import Mathlib

/-!
# Verification of `system/main/shim/btif_dm.cc`

A shallow embedding of the Bluetooth shim that adapts the legacy pairing
callbacks to the GD security manager, and proofs about it.

* The process-wide variable `waiting_for_pairing_prompt`, and the calls the
  shim makes on its external collaborators (the security manager, the legacy UI
  callback `callback_`, the three bond-state callbacks), are fields of an
  explicit `State`; every operation maps a state to the next one and appends
  the calls it makes, in program order, to the matching log.
* `uint8_t` / `uint32_t` / `int` values are `Nat` / `Int`; the `uint32_t`
  accumulation of `BTIF_DM_pin_reply` is reduced modulo `2 ^ 32`.
* A read outside an array has no defined value, so `BTIF_DM_pin_reply`
  returns an `Option`. A write outside a buffer is recorded: `memcpy` reports
  how many bytes it wrote past the end of the destination, that number is
  accumulated in `State.overrun`, and the rest of the state is taken to be
  untouched by those bytes.
* The size of the array `bt_bdname_t::name` is declared outside the file and is
  a parameter `sz` of the display operations (249 in the concrete instances).
-/

namespace bluetooth
namespace shim

/-! ## Data model -/

/-- The legacy address type (`RawAddress`): six address bytes. -/
structure RawAddress where
  address : List Nat
  deriving DecidableEq, Repr

namespace hci

/-- Modelled from the spec: `hci::Address` is declared outside this file. The
spec only says that the GD address and the legacy address are representations
of one device address, so a GD address is identified by the legacy address it
stands for. -/
structure Address where
  raw : RawAddress
  deriving DecidableEq, Repr

/-- Modelled from the spec: `hci::AddressWithType` is declared outside this
file; an address together with its link-layer address type (0 public,
1 random). -/
structure AddressWithType where
  address : Address
  address_type : Nat
  deriving DecidableEq, Repr

/-- The accessor `AddressWithType::GetAddress`. -/
def AddressWithType.GetAddress (a : AddressWithType) : Address := a.address

end hci

/-- Modelled from the spec: `ToRawAddress` of `main/shim/helpers.h`, which is
not part of this file; the legacy representation of a GD address. -/
def ToRawAddress (a : hci.Address) : RawAddress := a.raw

/-- Modelled from the spec: `ToAddressWithType` of `main/shim/helpers.h`, which
is not part of this file; the GD representation of a legacy address, tagged
with the given address type. -/
def ToAddressWithType (bd_addr : RawAddress) (addr_type : Nat) : hci.AddressWithType :=
  { address := { raw := bd_addr }, address_type := addr_type }

/-- The enumerators of `bt_ssp_variant_t` that the file uses. -/
inductive bt_ssp_variant_t
  | BT_SSP_VARIANT_PASSKEY_CONFIRMATION
  | BT_SSP_VARIANT_PASSKEY_ENTRY
  | BT_SSP_VARIANT_CONSENT
  | BT_SSP_VARIANT_PASSKEY_NOTIFICATION
  deriving DecidableEq, Repr

open bt_ssp_variant_t

/-- The legacy name buffer `bt_bdname_t`: the bytes of its array `name`. -/
structure bt_bdname_t where
  name : List Nat
  deriving DecidableEq, Repr

/-- The legacy PIN buffer `bt_pin_code_t`: the bytes of its array `pin`. -/
structure bt_pin_code_t where
  pin : List Nat
  deriving DecidableEq, Repr

/-- A call made on the security manager, with its arguments as passed. -/
inductive EngineCall
  | OnPairingPromptAccepted (address : hci.AddressWithType) (accept : Nat)
  | OnConfirmYesNo (address : hci.AddressWithType) (accept : Nat)
  | OnPasskeyEntry (address : hci.AddressWithType) (passkey : Nat)
  deriving DecidableEq, Repr

/-- One invocation of the legacy UI callback `callback_`, with its five
arguments as passed. -/
structure UiCall where
  bd_addr : RawAddress
  bd_name : bt_bdname_t
  cod : Nat
  variant : bt_ssp_variant_t
  value : Nat
  deriving DecidableEq, Repr

/-- One invocation of a legacy bond-state callback. -/
inductive BondCall
  | bond_state_bonding_cb (bd_addr : RawAddress)
  | bond_state_bonded_cb (bd_addr : RawAddress)
  | bond_state_none_cb (bd_addr : RawAddress)
  deriving DecidableEq, Repr

/-- The state of the shim: the flag `waiting_for_pairing_prompt`, the calls
made so far on the security manager, on `callback_` and on the bond-state
callbacks, and the number of bytes written so far past the end of a buffer. -/
structure State where
  waiting_for_pairing_prompt : Bool
  engine : List EngineCall
  ui : List UiCall
  bond : List BondCall
  overrun : Nat
  deriving DecidableEq, Repr

/-- The state at process start: `waiting_for_pairing_prompt = false`, nothing
called yet. -/
def initial : State :=
  { waiting_for_pairing_prompt := false, engine := [], ui := [], bond := [], overrun := 0 }

/-! ## `ShimUi` -/

/-- The value `((0x1F) << 8)` passed as class of device. -/
def COD_UNCLASSIFIED : Nat := 0x1F <<< 8

/-- The call `memcpy(dst, src, n)` for `n ≤ src.length`: the first `n` bytes of
`src` are written from the start of `dst`. Returns the bytes of `dst` after the
call and the number of bytes that were written past the end of `dst`. -/
def memcpy (dst src : List Nat) (n : Nat) : List Nat × Nat :=
  (((src.take n).take dst.length) ++ dst.drop n, n - dst.length)

namespace ShimUi

/-! Every display operation assigns the flag, builds `bt_bdname_t legacy_name{0}`
(`sz` zero bytes, where `sz` is the size of the array `bt_bdname_t::name`, which
is declared outside this file), copies `name.length()` bytes of `name.data()`
into it with `memcpy`, and calls `callback_`. -/

/-- The method `ShimUi::DisplayPairingPrompt`. -/
def DisplayPairingPrompt (sz : Nat) (s : State) (address : hci.AddressWithType)
    (name : List Nat) : State :=
  let legacy_name := memcpy (List.replicate sz 0) name name.length
  { s with
    waiting_for_pairing_prompt := true,
    ui := s.ui ++ [{ bd_addr := ToRawAddress address.GetAddress,
                     bd_name := { name := legacy_name.1 },
                     cod := COD_UNCLASSIFIED,
                     variant := BT_SSP_VARIANT_CONSENT, value := 0 }],
    overrun := s.overrun + legacy_name.2 }

/-- The method `ShimUi::Cancel`: only logs. -/
def Cancel (s : State) (_address : hci.AddressWithType) : State := s

/-- The method `ShimUi::DisplayConfirmValue`. -/
def DisplayConfirmValue (sz : Nat) (s : State) (address : hci.AddressWithType)
    (name : List Nat) (numeric_value : Nat) : State :=
  let legacy_name := memcpy (List.replicate sz 0) name name.length
  { s with
    waiting_for_pairing_prompt := false,
    ui := s.ui ++ [{ bd_addr := ToRawAddress address.GetAddress,
                     bd_name := { name := legacy_name.1 },
                     cod := COD_UNCLASSIFIED,
                     variant := BT_SSP_VARIANT_PASSKEY_CONFIRMATION, value := numeric_value }],
    overrun := s.overrun + legacy_name.2 }

/-- The method `ShimUi::DisplayYesNoDialog`. -/
def DisplayYesNoDialog (sz : Nat) (s : State) (address : hci.AddressWithType)
    (name : List Nat) : State :=
  let legacy_name := memcpy (List.replicate sz 0) name name.length
  { s with
    waiting_for_pairing_prompt := false,
    ui := s.ui ++ [{ bd_addr := ToRawAddress address.GetAddress,
                     bd_name := { name := legacy_name.1 },
                     cod := COD_UNCLASSIFIED,
                     variant := BT_SSP_VARIANT_CONSENT, value := 0 }],
    overrun := s.overrun + legacy_name.2 }

/-- The method `ShimUi::DisplayEnterPasskeyDialog`. -/
def DisplayEnterPasskeyDialog (sz : Nat) (s : State) (address : hci.AddressWithType)
    (name : List Nat) : State :=
  let legacy_name := memcpy (List.replicate sz 0) name name.length
  { s with
    waiting_for_pairing_prompt := false,
    ui := s.ui ++ [{ bd_addr := ToRawAddress address.GetAddress,
                     bd_name := { name := legacy_name.1 },
                     cod := COD_UNCLASSIFIED,
                     variant := BT_SSP_VARIANT_PASSKEY_ENTRY, value := 0 }],
    overrun := s.overrun + legacy_name.2 }

/-- The method `ShimUi::DisplayPasskey`. -/
def DisplayPasskey (sz : Nat) (s : State) (address : hci.AddressWithType)
    (name : List Nat) (passkey : Nat) : State :=
  let legacy_name := memcpy (List.replicate sz 0) name name.length
  { s with
    waiting_for_pairing_prompt := false,
    ui := s.ui ++ [{ bd_addr := ToRawAddress address.GetAddress,
                     bd_name := { name := legacy_name.1 },
                     cod := COD_UNCLASSIFIED,
                     variant := BT_SSP_VARIANT_PASSKEY_NOTIFICATION, value := passkey }],
    overrun := s.overrun + legacy_name.2 }

end ShimUi

/-! ## `ShimBondListener` -/

namespace ShimBondListener

/-- The method `ShimBondListener::OnDeviceBonded`. -/
def OnDeviceBonded (s : State) (device : hci.AddressWithType) : State :=
  { s with bond := s.bond ++ [BondCall.bond_state_bonded_cb (ToRawAddress device.GetAddress)] }

/-- The method `ShimBondListener::OnDeviceUnbonded`. -/
def OnDeviceUnbonded (s : State) (device : hci.AddressWithType) : State :=
  { s with bond := s.bond ++ [BondCall.bond_state_none_cb (ToRawAddress device.GetAddress)] }

/-- The method `ShimBondListener::OnDeviceBondFailed`. -/
def OnDeviceBondFailed (s : State) (device : hci.AddressWithType) : State :=
  { s with bond := s.bond ++ [BondCall.bond_state_none_cb (ToRawAddress device.GetAddress)] }

end ShimBondListener

/-! ## Replies -/

/-- The function `BTIF_DM_ssp_reply`. The parameter `addr_type` is not used:
both address types are tried. -/
def BTIF_DM_ssp_reply (s : State) (bd_addr : RawAddress) (_addr_type : Nat)
    (variant : bt_ssp_variant_t) (accept : Nat) : State :=
  let address := ToAddressWithType bd_addr 0
  let address2 := ToAddressWithType bd_addr 1
  if variant = BT_SSP_VARIANT_PASSKEY_CONFIRMATION then
    if s.waiting_for_pairing_prompt then
      { s with
        engine := s.engine ++ [EngineCall.OnPairingPromptAccepted address accept,
                               EngineCall.OnPairingPromptAccepted address2 accept],
        waiting_for_pairing_prompt := false }
    else
      { s with
        engine := s.engine ++ [EngineCall.OnConfirmYesNo address accept,
                               EngineCall.OnConfirmYesNo address2 accept] }
  else if variant = BT_SSP_VARIANT_CONSENT then
    { s with
      engine := s.engine ++ [EngineCall.OnConfirmYesNo address accept,
                             EngineCall.OnConfirmYesNo address2 accept] }
  else
    s

/-- The table `int multi[] = {100000, 10000, 1000, 100, 10, 1}`. -/
def multi : List Int := [100000, 10000, 1000, 100, 10, 1]

/-- The loop `for (int i = 0; i < pin_len; i++) passkey += multi[i] * (pin[i] - 48)`
of `BTIF_DM_pin_reply`, with `n = pin_len - i` iterations to go. The product is
an `int`; adding it to the `uint32_t` accumulator reduces modulo `2 ^ 32`. A
read outside `multi` or outside `pin` gives `none`. -/
def pin_loop (pin_code : bt_pin_code_t) : Nat → Nat → Nat → Option Nat
  | 0, _, passkey => some passkey
  | n + 1, i, passkey =>
    match multi[i]?, pin_code.pin[i]? with
    | some m, some c =>
      pin_loop pin_code n (i + 1) (((passkey : Int) + m * ((c : Int) - 48)) % 2 ^ 32).toNat
    | _, _ => none

/-- The function `BTIF_DM_pin_reply`. The parameter `addr_type` is not used:
both address types are tried. -/
def BTIF_DM_pin_reply (s : State) (bd_addr : RawAddress) (_addr_type : Nat)
    (accept : Nat) (pin_len : Nat) (pin_code : bt_pin_code_t) : Option State :=
  let address := ToAddressWithType bd_addr 0
  let address2 := ToAddressWithType bd_addr 1
  if accept = 0 then
    some s
  else
    match pin_loop pin_code pin_len 0 0 with
    | none => none
    | some passkey =>
      some { s with
             engine := s.engine ++ [EngineCall.OnPasskeyEntry address passkey,
                                    EngineCall.OnPasskeyEntry address2 passkey] }

/-! ## The calls of one operation -/

/-- The calls on the security manager made between state `s` and a later
state `t`: what `t.engine` holds after the calls already in `s.engine`. -/
def calls_made (s t : State) : List EngineCall := t.engine.drop s.engine.length

/-- Whether a call is `OnPairingPromptAccepted`. -/
def EngineCall.isOnPairingPromptAccepted : EngineCall → Bool
  | EngineCall.OnPairingPromptAccepted _ _ => true
  | _ => false

/-- Whether a call is `OnConfirmYesNo`. -/
def EngineCall.isOnConfirmYesNo : EngineCall → Bool
  | EngineCall.OnConfirmYesNo _ _ => true
  | _ => false

/-- Whether a call is `OnPasskeyEntry`. -/
def EngineCall.isOnPasskeyEntry : EngineCall → Bool
  | EngineCall.OnPasskeyEntry _ _ => true
  | _ => false

/-! ## Sequences of events -/

/-- An event the shim can receive: a UI request or a bond notification from the
security manager, or a reply from the legacy caller. -/
inductive Event
  | DisplayPairingPrompt (address : hci.AddressWithType) (name : List Nat)
  | Cancel (address : hci.AddressWithType)
  | DisplayConfirmValue (address : hci.AddressWithType) (name : List Nat) (numeric_value : Nat)
  | DisplayYesNoDialog (address : hci.AddressWithType) (name : List Nat)
  | DisplayEnterPasskeyDialog (address : hci.AddressWithType) (name : List Nat)
  | DisplayPasskey (address : hci.AddressWithType) (name : List Nat) (passkey : Nat)
  | OnDeviceBonded (device : hci.AddressWithType)
  | OnDeviceUnbonded (device : hci.AddressWithType)
  | OnDeviceBondFailed (device : hci.AddressWithType)
  | ssp_reply (bd_addr : RawAddress) (addr_type : Nat) (variant : bt_ssp_variant_t)
      (accept : Nat)
  | pin_reply (bd_addr : RawAddress) (addr_type : Nat) (accept : Nat) (pin_len : Nat)
      (pin_code : bt_pin_code_t)
  deriving DecidableEq, Repr

/-- The shim handling one event: the call of the function the event names. -/
def step (sz : Nat) (s : State) : Event → Option State
  | Event.DisplayPairingPrompt address name => some (ShimUi.DisplayPairingPrompt sz s address name)
  | Event.Cancel address => some (ShimUi.Cancel s address)
  | Event.DisplayConfirmValue address name numeric_value =>
    some (ShimUi.DisplayConfirmValue sz s address name numeric_value)
  | Event.DisplayYesNoDialog address name => some (ShimUi.DisplayYesNoDialog sz s address name)
  | Event.DisplayEnterPasskeyDialog address name =>
    some (ShimUi.DisplayEnterPasskeyDialog sz s address name)
  | Event.DisplayPasskey address name passkey =>
    some (ShimUi.DisplayPasskey sz s address name passkey)
  | Event.OnDeviceBonded device => some (ShimBondListener.OnDeviceBonded s device)
  | Event.OnDeviceUnbonded device => some (ShimBondListener.OnDeviceUnbonded s device)
  | Event.OnDeviceBondFailed device => some (ShimBondListener.OnDeviceBondFailed s device)
  | Event.ssp_reply bd_addr addr_type variant accept =>
    some (BTIF_DM_ssp_reply s bd_addr addr_type variant accept)
  | Event.pin_reply bd_addr addr_type accept pin_len pin_code =>
    BTIF_DM_pin_reply s bd_addr addr_type accept pin_len pin_code

/-- The shim handling a sequence of events, one after the other. -/
def run (sz : Nat) : State → List Event → Option State
  | s, [] => some s
  | s, e :: es =>
    match step sz s e with
    | none => none
    | some t => run sz t es

/-- Whether an event is `DisplayPairingPrompt`. -/
def Event.isDisplayPairingPrompt : Event → Bool
  | Event.DisplayPairingPrompt _ _ => true
  | _ => false

/-- Whether an event keeps every array read inside its array: every event
does, but for an accepted PIN reply whose `pin_len` exceeds the six entries of
`multi` or the bytes held by `pin_code`. -/
def Event.in_bounds : Event → Bool
  | Event.pin_reply _ _ accept pin_len pin_code =>
    accept == 0 || (decide (pin_len ≤ 6) && decide (pin_len ≤ pin_code.pin.length))
  | _ => true

/-- The number of `OnPairingPromptAccepted` calls made so far, plus the two
that an outstanding prompt still allows. -/
def acceptance_budget (s : State) : Nat :=
  s.engine.countP EngineCall.isOnPairingPromptAccepted +
    (if s.waiting_for_pairing_prompt then 2 else 0)

/-! ## Theorems -/

open EngineCall

theorem calls_made_append (s t : State) (l : List EngineCall)
    (h : t.engine = s.engine ++ l) : calls_made s t = l := by
  simp [calls_made, h]

theorem calls_made_self (s : State) : calls_made s s = [] := by
  simp [calls_made]

/-- C1: with the flag set, a PASSKEY_CONFIRMATION reply calls
`OnPairingPromptAccepted` for the address with type 0 and then with type 1,
both with the given `accept`, calls nothing else, and clears the flag. -/
theorem ssp_reply_confirmation_while_waiting (s : State) (bd_addr : RawAddress)
    (addr_type accept : Nat) (h : s.waiting_for_pairing_prompt = true) :
    BTIF_DM_ssp_reply s bd_addr addr_type BT_SSP_VARIANT_PASSKEY_CONFIRMATION accept =
        { s with
          engine := s.engine ++
            [OnPairingPromptAccepted { address := { raw := bd_addr }, address_type := 0 } accept,
             OnPairingPromptAccepted { address := { raw := bd_addr }, address_type := 1 } accept],
          waiting_for_pairing_prompt := false } ∧
      calls_made s
          (BTIF_DM_ssp_reply s bd_addr addr_type BT_SSP_VARIANT_PASSKEY_CONFIRMATION accept) =
        [OnPairingPromptAccepted { address := { raw := bd_addr }, address_type := 0 } accept,
         OnPairingPromptAccepted { address := { raw := bd_addr }, address_type := 1 } accept] ∧
      (calls_made s
          (BTIF_DM_ssp_reply s bd_addr addr_type BT_SSP_VARIANT_PASSKEY_CONFIRMATION
            accept)).countP isOnConfirmYesNo = 0 ∧
      (calls_made s
          (BTIF_DM_ssp_reply s bd_addr addr_type BT_SSP_VARIANT_PASSKEY_CONFIRMATION
            accept)).countP isOnPasskeyEntry = 0 ∧
      (BTIF_DM_ssp_reply s bd_addr addr_type BT_SSP_VARIANT_PASSKEY_CONFIRMATION
          accept).waiting_for_pairing_prompt = false := by
  have e : BTIF_DM_ssp_reply s bd_addr addr_type BT_SSP_VARIANT_PASSKEY_CONFIRMATION accept =
        { s with
          engine := s.engine ++
            [OnPairingPromptAccepted { address := { raw := bd_addr }, address_type := 0 } accept,
             OnPairingPromptAccepted { address := { raw := bd_addr }, address_type := 1 } accept],
          waiting_for_pairing_prompt := false } := by
    simp [BTIF_DM_ssp_reply, h, ToAddressWithType]
  have c := calls_made_append s _ _ (congrArg State.engine e)
  refine ⟨e, c, ?_, ?_, ?_⟩
  · rw [c]; rfl
  · rw [c]; rfl
  · rw [e]

/-- C1, at a concrete input: the reply that immediately follows a
`DisplayPairingPrompt` from the initial state. -/
theorem ssp_reply_confirmation_while_waiting_witness :
    (ShimUi.DisplayPairingPrompt 249 initial
        { address := { raw := { address := [1, 2, 3, 4, 5, 6] } }, address_type := 0 }
        [80, 104, 111, 110, 101]).waiting_for_pairing_prompt = true ∧
      calls_made
          (ShimUi.DisplayPairingPrompt 249 initial
            { address := { raw := { address := [1, 2, 3, 4, 5, 6] } }, address_type := 0 }
            [80, 104, 111, 110, 101])
          (BTIF_DM_ssp_reply
            (ShimUi.DisplayPairingPrompt 249 initial
              { address := { raw := { address := [1, 2, 3, 4, 5, 6] } }, address_type := 0 }
              [80, 104, 111, 110, 101])
            { address := [1, 2, 3, 4, 5, 6] } 0 BT_SSP_VARIANT_PASSKEY_CONFIRMATION 1) =
        [OnPairingPromptAccepted
           { address := { raw := { address := [1, 2, 3, 4, 5, 6] } }, address_type := 0 } 1,
         OnPairingPromptAccepted
           { address := { raw := { address := [1, 2, 3, 4, 5, 6] } }, address_type := 1 } 1] :=
  ⟨rfl,
   (ssp_reply_confirmation_while_waiting
      (ShimUi.DisplayPairingPrompt 249 initial
        { address := { raw := { address := [1, 2, 3, 4, 5, 6] } }, address_type := 0 }
        [80, 104, 111, 110, 101])
      { address := [1, 2, 3, 4, 5, 6] } 0 1 rfl).2.1⟩

/-- C2: with the flag clear, a PASSKEY_CONFIRMATION reply calls
`OnConfirmYesNo` for the address with type 0 and then with type 1, both with
the given `accept`, never `OnPairingPromptAccepted`, and the flag stays
clear. -/
theorem ssp_reply_confirmation_not_waiting (s : State) (bd_addr : RawAddress)
    (addr_type accept : Nat) (h : s.waiting_for_pairing_prompt = false) :
    BTIF_DM_ssp_reply s bd_addr addr_type BT_SSP_VARIANT_PASSKEY_CONFIRMATION accept =
        { s with
          engine := s.engine ++
            [OnConfirmYesNo { address := { raw := bd_addr }, address_type := 0 } accept,
             OnConfirmYesNo { address := { raw := bd_addr }, address_type := 1 } accept] } ∧
      calls_made s
          (BTIF_DM_ssp_reply s bd_addr addr_type BT_SSP_VARIANT_PASSKEY_CONFIRMATION accept) =
        [OnConfirmYesNo { address := { raw := bd_addr }, address_type := 0 } accept,
         OnConfirmYesNo { address := { raw := bd_addr }, address_type := 1 } accept] ∧
      (calls_made s
          (BTIF_DM_ssp_reply s bd_addr addr_type BT_SSP_VARIANT_PASSKEY_CONFIRMATION
            accept)).countP isOnPairingPromptAccepted = 0 ∧
      (BTIF_DM_ssp_reply s bd_addr addr_type BT_SSP_VARIANT_PASSKEY_CONFIRMATION
          accept).waiting_for_pairing_prompt = false := by
  have e : BTIF_DM_ssp_reply s bd_addr addr_type BT_SSP_VARIANT_PASSKEY_CONFIRMATION accept =
        { s with
          engine := s.engine ++
            [OnConfirmYesNo { address := { raw := bd_addr }, address_type := 0 } accept,
             OnConfirmYesNo { address := { raw := bd_addr }, address_type := 1 } accept] } := by
    simp [BTIF_DM_ssp_reply, h, ToAddressWithType]
  have c := calls_made_append s _ _ (congrArg State.engine e)
  refine ⟨e, c, ?_, ?_⟩
  · rw [c]; rfl
  · rw [e]; exact h

/-- C2, at a concrete input: a reply in the initial state, before any prompt
was displayed. -/
theorem ssp_reply_confirmation_not_waiting_witness :
    initial.waiting_for_pairing_prompt = false ∧
      calls_made initial
          (BTIF_DM_ssp_reply initial { address := [1, 2, 3, 4, 5, 6] } 7
            BT_SSP_VARIANT_PASSKEY_CONFIRMATION 1) =
        [OnConfirmYesNo
           { address := { raw := { address := [1, 2, 3, 4, 5, 6] } }, address_type := 0 } 1,
         OnConfirmYesNo
           { address := { raw := { address := [1, 2, 3, 4, 5, 6] } }, address_type := 1 } 1] :=
  ⟨rfl, (ssp_reply_confirmation_not_waiting initial { address := [1, 2, 3, 4, 5, 6] } 7 1 rfl).2.1⟩

/-- C3: a CONSENT reply calls `OnConfirmYesNo` for the address with type 0 and
then with type 1, both with the given `accept`, never
`OnPairingPromptAccepted`, and leaves the flag, whatever it was, as it was. -/
theorem ssp_reply_consent (s : State) (bd_addr : RawAddress) (addr_type accept : Nat) :
    BTIF_DM_ssp_reply s bd_addr addr_type BT_SSP_VARIANT_CONSENT accept =
        { s with
          engine := s.engine ++
            [OnConfirmYesNo { address := { raw := bd_addr }, address_type := 0 } accept,
             OnConfirmYesNo { address := { raw := bd_addr }, address_type := 1 } accept] } ∧
      calls_made s (BTIF_DM_ssp_reply s bd_addr addr_type BT_SSP_VARIANT_CONSENT accept) =
        [OnConfirmYesNo { address := { raw := bd_addr }, address_type := 0 } accept,
         OnConfirmYesNo { address := { raw := bd_addr }, address_type := 1 } accept] ∧
      (calls_made s (BTIF_DM_ssp_reply s bd_addr addr_type BT_SSP_VARIANT_CONSENT
          accept)).countP isOnPairingPromptAccepted = 0 ∧
      (BTIF_DM_ssp_reply s bd_addr addr_type BT_SSP_VARIANT_CONSENT
          accept).waiting_for_pairing_prompt = s.waiting_for_pairing_prompt := by
  have e : BTIF_DM_ssp_reply s bd_addr addr_type BT_SSP_VARIANT_CONSENT accept =
        { s with
          engine := s.engine ++
            [OnConfirmYesNo { address := { raw := bd_addr }, address_type := 0 } accept,
             OnConfirmYesNo { address := { raw := bd_addr }, address_type := 1 } accept] } := by
    simp [BTIF_DM_ssp_reply, ToAddressWithType]
  have c := calls_made_append s _ _ (congrArg State.engine e)
  refine ⟨e, c, ?_, ?_⟩
  · rw [c]; rfl
  · rw [e]

/-- C5: a reply whose variant is neither PASSKEY_CONFIRMATION nor CONSENT, and
a PIN reply with `accept = 0`, return the state they were given: no call on the
security manager, flag unchanged. -/
theorem unsupported_reply_is_noop (s : State) (bd_addr : RawAddress)
    (addr_type accept pin_len : Nat) (pin_code : bt_pin_code_t) (variant : bt_ssp_variant_t)
    (h1 : variant ≠ BT_SSP_VARIANT_PASSKEY_CONFIRMATION)
    (h2 : variant ≠ BT_SSP_VARIANT_CONSENT) :
    BTIF_DM_ssp_reply s bd_addr addr_type variant accept = s ∧
      calls_made s (BTIF_DM_ssp_reply s bd_addr addr_type variant accept) = [] ∧
      (BTIF_DM_ssp_reply s bd_addr addr_type variant accept).waiting_for_pairing_prompt =
        s.waiting_for_pairing_prompt ∧
      BTIF_DM_pin_reply s bd_addr addr_type 0 pin_len pin_code = some s := by
  have e : BTIF_DM_ssp_reply s bd_addr addr_type variant accept = s := by
    simp [BTIF_DM_ssp_reply, h1, h2]
  refine ⟨e, ?_, ?_, ?_⟩
  · rw [e]; exact calls_made_self s
  · rw [e]
  · simp [BTIF_DM_pin_reply]

/-- C5, at concrete inputs: a PASSKEY_ENTRY reply while the flag is set, and a
rejected PIN reply whose length exceeds every array. -/
theorem unsupported_reply_is_noop_witness :
    BTIF_DM_ssp_reply { initial with waiting_for_pairing_prompt := true }
        { address := [1, 2, 3, 4, 5, 6] } 0 BT_SSP_VARIANT_PASSKEY_ENTRY 1 =
        { initial with waiting_for_pairing_prompt := true } ∧
      BTIF_DM_pin_reply { initial with waiting_for_pairing_prompt := true }
        { address := [1, 2, 3, 4, 5, 6] } 0 0 255 { pin := [49, 50] } =
        some { initial with waiting_for_pairing_prompt := true } :=
  ⟨(unsupported_reply_is_noop { initial with waiting_for_pairing_prompt := true }
      { address := [1, 2, 3, 4, 5, 6] } 0 1 255 { pin := [49, 50] }
      BT_SSP_VARIANT_PASSKEY_ENTRY (by decide) (by decide)).1,
   (unsupported_reply_is_noop { initial with waiting_for_pairing_prompt := true }
      { address := [1, 2, 3, 4, 5, 6] } 0 1 255 { pin := [49, 50] }
      BT_SSP_VARIANT_PASSKEY_ENTRY (by decide) (by decide)).2.2.2⟩

/-- C6: whatever the flag was, `DisplayPairingPrompt` leaves it true and each
of the four other display operations leaves it false; a second application
(also with other arguments) gives the same flag as the first. -/
theorem display_sets_flag (sz : Nat) (s : State) (address address2 : hci.AddressWithType)
    (name name2 : List Nat) (value value2 : Nat) :
    ((ShimUi.DisplayPairingPrompt sz s address name).waiting_for_pairing_prompt = true ∧
      (ShimUi.DisplayConfirmValue sz s address name value).waiting_for_pairing_prompt = false ∧
      (ShimUi.DisplayYesNoDialog sz s address name).waiting_for_pairing_prompt = false ∧
      (ShimUi.DisplayEnterPasskeyDialog sz s address name).waiting_for_pairing_prompt = false ∧
      (ShimUi.DisplayPasskey sz s address name value).waiting_for_pairing_prompt = false) ∧
    ((ShimUi.DisplayPairingPrompt sz (ShimUi.DisplayPairingPrompt sz s address name)
          address2 name2).waiting_for_pairing_prompt =
        (ShimUi.DisplayPairingPrompt sz s address name).waiting_for_pairing_prompt ∧
      (ShimUi.DisplayConfirmValue sz (ShimUi.DisplayConfirmValue sz s address name value)
          address2 name2 value2).waiting_for_pairing_prompt =
        (ShimUi.DisplayConfirmValue sz s address name value).waiting_for_pairing_prompt ∧
      (ShimUi.DisplayYesNoDialog sz (ShimUi.DisplayYesNoDialog sz s address name)
          address2 name2).waiting_for_pairing_prompt =
        (ShimUi.DisplayYesNoDialog sz s address name).waiting_for_pairing_prompt ∧
      (ShimUi.DisplayEnterPasskeyDialog sz (ShimUi.DisplayEnterPasskeyDialog sz s address name)
          address2 name2).waiting_for_pairing_prompt =
        (ShimUi.DisplayEnterPasskeyDialog sz s address name).waiting_for_pairing_prompt ∧
      (ShimUi.DisplayPasskey sz (ShimUi.DisplayPasskey sz s address name value)
          address2 name2 value2).waiting_for_pairing_prompt =
        (ShimUi.DisplayPasskey sz s address name value).waiting_for_pairing_prompt) := by
  refine ⟨⟨rfl, rfl, rfl, rfl, rfl⟩, rfl, rfl, rfl, rfl, rfl⟩

/-- C8: `OnDeviceBonded` calls the bonded callback, and `OnDeviceUnbonded` and
`OnDeviceBondFailed` each call the none callback, once, with the legacy form of
the address of the device, and nothing else changes. -/
theorem bond_listener_routes (s : State) (device : hci.AddressWithType) :
    ShimBondListener.OnDeviceBonded s device =
        { s with bond := s.bond ++ [BondCall.bond_state_bonded_cb device.address.raw] } ∧
      ShimBondListener.OnDeviceUnbonded s device =
        { s with bond := s.bond ++ [BondCall.bond_state_none_cb device.address.raw] } ∧
      ShimBondListener.OnDeviceBondFailed s device =
        { s with bond := s.bond ++ [BondCall.bond_state_none_cb device.address.raw] } :=
  ⟨rfl, rfl, rfl⟩

theorem memcpy_overrun (sz : Nat) (name : List Nat) :
    (memcpy (List.replicate sz 0) name name.length).2 = name.length - sz := by
  simp [memcpy]

theorem display_overrun (sz : Nat) (s : State) (address : hci.AddressWithType)
    (name : List Nat) (value : Nat) :
    (ShimUi.DisplayPairingPrompt sz s address name).overrun =
        s.overrun + (name.length - sz) ∧
      (ShimUi.DisplayConfirmValue sz s address name value).overrun =
        s.overrun + (name.length - sz) ∧
      (ShimUi.DisplayYesNoDialog sz s address name).overrun =
        s.overrun + (name.length - sz) ∧
      (ShimUi.DisplayEnterPasskeyDialog sz s address name).overrun =
        s.overrun + (name.length - sz) ∧
      (ShimUi.DisplayPasskey sz s address name value).overrun =
        s.overrun + (name.length - sz) := by
  simp only [ShimUi.DisplayPairingPrompt, ShimUi.DisplayConfirmValue, ShimUi.DisplayYesNoDialog,
    ShimUi.DisplayEnterPasskeyDialog, ShimUi.DisplayPasskey, memcpy_overrun, and_self]

/-- C9: with a name buffer of 249 bytes and a name of 250 bytes, each display
operation writes one byte past the end of `legacy_name.name`: the length given
to `memcpy` is the length of the name, which is not clamped. -/
theorem display_writes_past_legacy_name :
    (ShimUi.DisplayPairingPrompt 249 initial
        { address := { raw := { address := [1, 2, 3, 4, 5, 6] } }, address_type := 0 }
        (List.replicate 250 65)).overrun = 1 ∧
      (ShimUi.DisplayConfirmValue 249 initial
        { address := { raw := { address := [1, 2, 3, 4, 5, 6] } }, address_type := 0 }
        (List.replicate 250 65) 123456).overrun = 1 ∧
      (ShimUi.DisplayYesNoDialog 249 initial
        { address := { raw := { address := [1, 2, 3, 4, 5, 6] } }, address_type := 0 }
        (List.replicate 250 65)).overrun = 1 ∧
      (ShimUi.DisplayEnterPasskeyDialog 249 initial
        { address := { raw := { address := [1, 2, 3, 4, 5, 6] } }, address_type := 0 }
        (List.replicate 250 65)).overrun = 1 ∧
      (ShimUi.DisplayPasskey 249 initial
        { address := { raw := { address := [1, 2, 3, 4, 5, 6] } }, address_type := 0 }
        (List.replicate 250 65) 123456).overrun = 1 := by
  refine ⟨?_, ?_, ?_, ?_, ?_⟩
  · rw [(display_overrun 249 initial _ _ 123456).1, List.length_replicate]; rfl
  · rw [(display_overrun 249 initial _ _ 123456).2.1, List.length_replicate]; rfl
  · rw [(display_overrun 249 initial _ _ 123456).2.2.1, List.length_replicate]; rfl
  · rw [(display_overrun 249 initial _ _ 123456).2.2.2.1, List.length_replicate]; rfl
  · rw [(display_overrun 249 initial _ _ 123456).2.2.2.2, List.length_replicate]; rfl


theorem pin_step (acc m d : Nat) (h : acc + m * d < 2 ^ 32) :
    (((acc : Int) + (m : Int) * (((48 + d : Nat) : Int) - 48)) % 2 ^ 32).toNat = acc + m * d := by
  have e : ((acc : Int) + (m : Int) * (((48 + d : Nat) : Int) - 48)) =
      ((acc + m * d : Nat) : Int) := by
    push_cast; ring
  have r : (((acc + m * d : Nat) : Int) % 2 ^ 32) = ((acc + m * d : Nat) : Int) := by
    apply Int.emod_eq_of_lt
    · positivity
    · exact_mod_cast h
  rw [e, r]
  exact Int.toNat_natCast _

theorem multi_get (i : Nat) (h : i < 6) : multi[i]? = some ((10 ^ (5 - i) : Nat) : Int) := by
  interval_cases i <;> rfl

theorem pin_loop_ascii (pin_code : bt_pin_code_t) :
    ∀ (n i acc : Nat), i + n ≤ 6 → acc + 10 ^ (6 - i) ≤ 10 ^ 6 →
      (∀ j, i ≤ j → j < i + n → ∃ c, pin_code.pin[j]? = some c ∧ 48 ≤ c ∧ c ≤ 57) →
      pin_loop pin_code n i acc =
          some (acc + ∑ k in Finset.range n,
            (pin_code.pin.getD (i + k) 48 - 48) * 10 ^ (5 - (i + k))) ∧
        (acc + ∑ k in Finset.range n,
            (pin_code.pin.getD (i + k) 48 - 48) * 10 ^ (5 - (i + k))) + 10 ^ (6 - (i + n))
          ≤ 10 ^ 6 := by
  intro n
  induction n with
  | zero =>
    intro i acc _ hacc _
    simpa [pin_loop] using hacc
  | succ n ih =>
    intro i acc hin hacc hd
    obtain ⟨c, hc, hc1, hc2⟩ := hd i (le_refl i) (by omega)
    obtain ⟨d, rfl⟩ : ∃ d, c = 48 + d := ⟨c - 48, by omega⟩
    have hi : i < 6 := by omega
    have hpow : 10 ^ (6 - i) = 10 * 10 ^ (5 - i) := by
      rw [show 6 - i = (5 - i) + 1 by omega, pow_succ]; ring
    have hpos : 0 < 10 ^ (5 - i) := by positivity
    have hbound : acc + 10 ^ (5 - i) * d + 10 ^ (6 - (i + 1)) ≤ 10 ^ 6 := by
      rw [show 6 - (i + 1) = 5 - i by omega]
      have : 10 ^ (5 - i) * d ≤ 10 ^ (5 - i) * 9 := Nat.mul_le_mul_left _ (by omega)
      omega
    have hlt : acc + 10 ^ (5 - i) * d < 2 ^ 32 := by
      have h6 : (10 : Nat) ^ 6 < 2 ^ 32 := by norm_num
      have h0 : 0 ≤ 10 ^ (6 - (i + 1)) := Nat.zero_le _
      exact lt_of_le_of_lt (le_trans (Nat.le_add_right _ _) hbound) h6
    have hstep := pin_step acc (10 ^ (5 - i)) d hlt
    have hrec := ih (i + 1) (acc + 10 ^ (5 - i) * d) (by omega) hbound
      (fun j h1 h2 => hd j (by omega) (by omega))
    have hget : pin_code.pin.getD i 48 = 48 + d := by
      simp [List.getD, hc]
    have hsum : ∑ k in Finset.range (n + 1),
          (pin_code.pin.getD (i + k) 48 - 48) * 10 ^ (5 - (i + k)) =
        10 ^ (5 - i) * d + ∑ k in Finset.range n,
          (pin_code.pin.getD (i + 1 + k) 48 - 48) * 10 ^ (5 - (i + 1 + k)) := by
      rw [Finset.sum_range_succ', add_comm]
      congr 1
      · rw [Nat.add_zero, hget, Nat.add_sub_cancel_left, mul_comm]
      · apply Finset.sum_congr rfl
        intro k _
        rw [show i + (k + 1) = i + 1 + k by omega]
    rw [hsum, ← add_assoc, show i + (n + 1) = i + 1 + n by omega]
    refine ⟨?_, hrec.2⟩
    rw [← hrec.1]
    simp only [pin_loop, multi_get i hi, hc]
    rw [hstep]

theorem weights_sum_eq_ofDigits (digits : List Nat) (h : digits.length ≤ 6) :
    ∑ i in Finset.range digits.length, digits.getD i 0 * 10 ^ (5 - i) =
      Nat.ofDigits 10 digits.reverse * 10 ^ (6 - digits.length) := by
  rcases digits with _ | ⟨d0, _ | ⟨d1, _ | ⟨d2, _ | ⟨d3, _ | ⟨d4, _ | ⟨d5, _ | ⟨d6, t⟩⟩⟩⟩⟩⟩⟩
  · simp
  · simp [Finset.sum_range_succ, Nat.ofDigits]
  · simp [Finset.sum_range_succ, Nat.ofDigits]; ring
  · simp [Finset.sum_range_succ, Nat.ofDigits]; ring
  · simp [Finset.sum_range_succ, Nat.ofDigits]; ring
  · simp [Finset.sum_range_succ, Nat.ofDigits]; ring
  · simp [Finset.sum_range_succ, Nat.ofDigits]; ring
  · simp at h

theorem pin_reply_ascii (s : State) (bd_addr : RawAddress) (addr_type accept pin_len : Nat)
    (pin_code : bt_pin_code_t) (ha : accept ≠ 0) (hlen : pin_len ≤ 6)
    (hd : ∀ i, i < pin_len → ∃ c, pin_code.pin[i]? = some c ∧ 48 ≤ c ∧ c ≤ 57) :
    BTIF_DM_pin_reply s bd_addr addr_type accept pin_len pin_code =
        some { s with
          engine := s.engine ++
            [OnPasskeyEntry { address := { raw := bd_addr }, address_type := 0 }
               (∑ i in Finset.range pin_len, (pin_code.pin.getD i 48 - 48) * 10 ^ (5 - i)),
             OnPasskeyEntry { address := { raw := bd_addr }, address_type := 1 }
               (∑ i in Finset.range pin_len, (pin_code.pin.getD i 48 - 48) * 10 ^ (5 - i))] } ∧
      (∑ i in Finset.range pin_len, (pin_code.pin.getD i 48 - 48) * 10 ^ (5 - i)) ≤ 999999 := by
  have h := pin_loop_ascii pin_code pin_len 0 0 (by omega) (by norm_num)
    (fun j _ h2 => hd j (by omega))
  simp only [Nat.zero_add] at h
  refine ⟨?_, ?_⟩
  · simp [BTIF_DM_pin_reply, ha, h.1, ToAddressWithType]
  · have h2 := h.2
    have : 1 ≤ 10 ^ (6 - pin_len) := Nat.one_le_two_pow.trans (by
      exact Nat.pow_le_pow_left (by norm_num) _)
    omega

/-- C10: for an accepted PIN reply with `pin_len ≤ 6` whose first `pin_len`
bytes are ASCII digits, both `OnPasskeyEntry` calls carry the sum of
`(pin[i] - 48) * 10 ^ (5 - i)` over `i < pin_len`; that sum is at most 999999,
hence below `2 ^ 32`, so the reduction modulo `2 ^ 32` never applies; and for
`pin_len = 6` it is the decimal value of the six digits. -/
theorem pin_reply_passkey_weights (s : State) (bd_addr : RawAddress)
    (addr_type accept pin_len : Nat) (pin_code : bt_pin_code_t) (ha : accept ≠ 0)
    (hlen : pin_len ≤ 6)
    (hd : ∀ i, i < pin_len → ∃ c, pin_code.pin[i]? = some c ∧ 48 ≤ c ∧ c ≤ 57) :
    BTIF_DM_pin_reply s bd_addr addr_type accept pin_len pin_code =
        some { s with
          engine := s.engine ++
            [OnPasskeyEntry { address := { raw := bd_addr }, address_type := 0 }
               (∑ i in Finset.range pin_len, (pin_code.pin.getD i 48 - 48) * 10 ^ (5 - i)),
             OnPasskeyEntry { address := { raw := bd_addr }, address_type := 1 }
               (∑ i in Finset.range pin_len, (pin_code.pin.getD i 48 - 48) * 10 ^ (5 - i))] } ∧
      (∑ i in Finset.range pin_len, (pin_code.pin.getD i 48 - 48) * 10 ^ (5 - i)) ≤ 999999 ∧
      (∑ i in Finset.range pin_len, (pin_code.pin.getD i 48 - 48) * 10 ^ (5 - i)) < 2 ^ 32 ∧
      (pin_len = 6 →
        (∑ i in Finset.range pin_len, (pin_code.pin.getD i 48 - 48) * 10 ^ (5 - i)) =
          Nat.ofDigits 10 (((pin_code.pin.take 6).map (fun c => c - 48)).reverse)) := by
  have h := pin_reply_ascii s bd_addr addr_type accept pin_len pin_code ha hlen hd
  refine ⟨h.1, h.2, lt_of_le_of_lt h.2 (by norm_num), ?_⟩
  intro h6
  subst h6
  obtain ⟨c, hc, -, -⟩ := hd 5 (by norm_num)
  have hl : 6 ≤ pin_code.pin.length := by
    by_contra hcon
    rw [List.getElem?_eq_none (by omega)] at hc
    exact Option.noConfusion hc
  have hlen6 : ((pin_code.pin.take 6).map (fun c => c - 48)).length = 6 := by
    simp [hl]
  have hw := weights_sum_eq_ofDigits ((pin_code.pin.take 6).map (fun c => c - 48))
    (le_of_eq hlen6)
  rw [hlen6] at hw
  rw [← (by simpa using hw :
    ∑ i in Finset.range 6, ((pin_code.pin.take 6).map (fun c => c - 48)).getD i 0 * 10 ^ (5 - i) =
      Nat.ofDigits 10 ((pin_code.pin.take 6).map (fun c => c - 48)).reverse)]
  apply Finset.sum_congr rfl
  intro i hi
  have hi6 : i < 6 := Finset.mem_range.mp hi
  obtain ⟨ci, hci, -, -⟩ := hd i hi6
  congr 1
  simp [List.getD_eq_getElem?_getD, List.getElem?_map, List.getElem?_take, hi6, hci]

/-- C4: the claim asks for the PIN read as a base-10 numeral, so 1234 for the
digits 1,2,3,4 (length 4). The code does not deliver it: the loop stops at
`pin_len` while the weights of `multi` stay anchored to six digits, so the
passkey passed to both `OnPasskeyEntry` calls is 123400. -/
theorem pin_reply_not_base10_numeral :
    BTIF_DM_pin_reply initial { address := [1, 2, 3, 4, 5, 6] } 0 1 4
          { pin := [49, 50, 51, 52, 0, 0, 0, 0, 0, 0, 0, 0, 0, 0, 0, 0] } =
        some { initial with
          engine :=
            [OnPasskeyEntry
               { address := { raw := { address := [1, 2, 3, 4, 5, 6] } }, address_type := 0 }
               123400,
             OnPasskeyEntry
               { address := { raw := { address := [1, 2, 3, 4, 5, 6] } }, address_type := 1 }
               123400] } ∧
      (∑ i in Finset.range 4, [1, 2, 3, 4].getD i 0 * 10 ^ (4 - 1 - i)) = 1234 ∧
      BTIF_DM_pin_reply initial { address := [1, 2, 3, 4, 5, 6] } 0 1 4
          { pin := [49, 50, 51, 52, 0, 0, 0, 0, 0, 0, 0, 0, 0, 0, 0, 0] } ≠
        some { initial with
          engine :=
            [OnPasskeyEntry
               { address := { raw := { address := [1, 2, 3, 4, 5, 6] } }, address_type := 0 }
               1234,
             OnPasskeyEntry
               { address := { raw := { address := [1, 2, 3, 4, 5, 6] } }, address_type := 1 }
               1234] } := by
  refine ⟨by decide, by decide, by decide⟩

/-- C10, at a concrete input: the PIN "123456" gives passkey 123456. -/
theorem pin_reply_passkey_weights_witness :
    BTIF_DM_pin_reply initial { address := [1, 2, 3, 4, 5, 6] } 0 1 6
          { pin := [49, 50, 51, 52, 53, 54, 0, 0, 0, 0, 0, 0, 0, 0, 0, 0] } =
        some { initial with
          engine :=
            [OnPasskeyEntry
               { address := { raw := { address := [1, 2, 3, 4, 5, 6] } }, address_type := 0 }
               123456,
             OnPasskeyEntry
               { address := { raw := { address := [1, 2, 3, 4, 5, 6] } }, address_type := 1 }
               123456] } :=
  (pin_reply_passkey_weights initial { address := [1, 2, 3, 4, 5, 6] } 0 1 6
    { pin := [49, 50, 51, 52, 53, 54, 0, 0, 0, 0, 0, 0, 0, 0, 0, 0] } (by decide) (by decide)
    (by
      intro i hi
      interval_cases i <;> exact ⟨_, rfl, by decide, by decide⟩)).1

theorem pin_loop_in_bounds (pin_code : bt_pin_code_t) :
    ∀ (n i acc : Nat), i + n ≤ 6 → i + n ≤ pin_code.pin.length →
      ∃ v, pin_loop pin_code n i acc = some v := by
  intro n
  induction n with
  | zero => intro i acc _ _; exact ⟨acc, rfl⟩
  | succ n ih =>
    intro i acc h1 h2
    have hm : i < multi.length := by simp [multi]; omega
    have hp : i < pin_code.pin.length := by omega
    simp only [pin_loop, List.getElem?_eq_getElem hm, List.getElem?_eq_getElem hp]
    exact ih (i + 1) _ (by omega) (by omega)

theorem pin_reply_flag (s t : State) (bd_addr : RawAddress) (addr_type accept pin_len : Nat)
    (pin_code : bt_pin_code_t)
    (h : BTIF_DM_pin_reply s bd_addr addr_type accept pin_len pin_code = some t) :
    t.waiting_for_pairing_prompt = s.waiting_for_pairing_prompt ∧
      (calls_made s t).countP isOnPairingPromptAccepted = 0 ∧
      t.engine = s.engine ++ calls_made s t := by
  unfold BTIF_DM_pin_reply at h
  by_cases ha : accept = 0
  · simp [ha] at h
    subst h
    simp [calls_made_self]
  · simp only [ha, if_false] at h
    cases hl : pin_loop pin_code pin_len 0 0 with
    | none => simp [hl] at h
    | some v =>
      simp only [hl, Option.some.injEq] at h
      subst h
      simp [calls_made, isOnPairingPromptAccepted]

theorem step_in_bounds (sz : Nat) (s : State) (e : Event) (h : e.in_bounds = true) :
    ∃ t, step sz s e = some t := by
  cases e with
  | pin_reply bd_addr addr_type accept pin_len pin_code =>
    simp only [Event.in_bounds, Bool.or_eq_true, beq_iff_eq, Bool.and_eq_true,
      decide_eq_true_eq] at h
    simp only [step, BTIF_DM_pin_reply]
    by_cases ha : accept = 0
    · exact ⟨s, by simp [ha]⟩
    · rcases h with h | ⟨h1, h2⟩
      · exact absurd h ha
      · obtain ⟨v, hv⟩ := pin_loop_in_bounds pin_code pin_len 0 0 (by omega) (by omega)
        simp [ha, hv]
  | _ => exact ⟨_, rfl⟩

theorem step_flag_false (sz : Nat) (s t : State) (e : Event) (h : step sz s e = some t)
    (he : e.isDisplayPairingPrompt = false) (hs : s.waiting_for_pairing_prompt = false) :
    t.waiting_for_pairing_prompt = false := by
  cases e with
  | DisplayPairingPrompt address name => simp [Event.isDisplayPairingPrompt] at he
  | pin_reply bd_addr addr_type accept pin_len pin_code =>
    rw [(pin_reply_flag s t bd_addr addr_type accept pin_len pin_code h).1]; exact hs
  | ssp_reply bd_addr addr_type variant accept =>
    simp only [step, Option.some.injEq] at h
    subst h
    unfold BTIF_DM_ssp_reply
    simp only [hs]
    split_ifs <;> simp [hs]
  | _ =>
    simp only [step, Option.some.injEq] at h
    subst h
    first
      | exact hs
      | rfl

theorem run_append (sz : Nat) (a b : List Event) :
    ∀ s, run sz s (a ++ b) = (run sz s a).bind (fun t => run sz t b) := by
  induction a with
  | nil => intro s; simp [run]
  | cons e es ih =>
    intro s
    simp only [List.cons_append, run]
    cases step sz s e with
    | none => simp
    | some t => simpa using ih t

theorem run_in_bounds (sz : Nat) (evs : List Event) :
    ∀ s, (∀ e ∈ evs, e.in_bounds = true) → ∃ t, run sz s evs = some t := by
  induction evs with
  | nil => intro s _; exact ⟨s, rfl⟩
  | cons e es ih =>
    intro s h
    obtain ⟨t, ht⟩ := step_in_bounds sz s e (h e (List.mem_cons_self _ _))
    obtain ⟨u, hu⟩ := ih t (fun x hx => h x (List.mem_cons_of_mem _ hx))
    exact ⟨u, by simp [run, ht, hu]⟩

theorem run_flag_false (sz : Nat) (evs : List Event) :
    ∀ s t, run sz s evs = some t → (∀ e ∈ evs, e.isDisplayPairingPrompt = false) →
      s.waiting_for_pairing_prompt = false → t.waiting_for_pairing_prompt = false := by
  induction evs with
  | nil =>
    intro s t h _ hs
    simp only [run, Option.some.injEq] at h
    subst h; exact hs
  | cons e es ih =>
    intro s t h hev hs
    simp only [run] at h
    cases hst : step sz s e with
    | none => simp [hst] at h
    | some u =>
      simp only [hst] at h
      exact ih u t h (fun x hx => hev x (List.mem_cons_of_mem _ hx))
        (step_flag_false sz s u e hst (hev e (List.mem_cons_self _ _)) hs)

theorem step_budget (sz : Nat) (s t : State) (e : Event) (h : step sz s e = some t) :
    acceptance_budget t ≤
      acceptance_budget s + (if e.isDisplayPairingPrompt then 2 else 0) := by
  cases e with
  | DisplayPairingPrompt address name =>
    simp only [step, Option.some.injEq] at h
    subst h
    simp only [acceptance_budget, ShimUi.DisplayPairingPrompt, Event.isDisplayPairingPrompt]
    split_ifs <;> simp
  | pin_reply bd_addr addr_type accept pin_len pin_code =>
    obtain ⟨h1, h2, h3⟩ := pin_reply_flag s t bd_addr addr_type accept pin_len pin_code h
    simp only [acceptance_budget, h1, Event.isDisplayPairingPrompt]
    rw [h3, List.countP_append, h2]
    simp
  | ssp_reply bd_addr addr_type variant accept =>
    simp only [step, Option.some.injEq] at h
    subst h
    simp only [acceptance_budget, BTIF_DM_ssp_reply, Event.isDisplayPairingPrompt]
    split_ifs <;> simp_all [List.countP_append, List.countP_cons, isOnPairingPromptAccepted]
  | _ =>
    simp only [step, Option.some.injEq] at h
    subst h
    simp [acceptance_budget, ShimUi.DisplayConfirmValue, ShimUi.DisplayYesNoDialog,
      ShimUi.DisplayEnterPasskeyDialog, ShimUi.DisplayPasskey, ShimUi.Cancel,
      ShimBondListener.OnDeviceBonded, ShimBondListener.OnDeviceUnbonded,
      ShimBondListener.OnDeviceBondFailed, Event.isDisplayPairingPrompt]

theorem run_budget (sz : Nat) (evs : List Event) :
    ∀ s t, run sz s evs = some t →
      acceptance_budget t ≤ acceptance_budget s + 2 * evs.countP Event.isDisplayPairingPrompt := by
  induction evs with
  | nil =>
    intro s t h
    simp only [run, Option.some.injEq] at h
    subst h; simp
  | cons e es ih =>
    intro s t h
    simp only [run] at h
    cases hst : step sz s e with
    | none => simp [hst] at h
    | some u =>
      simp only [hst] at h
      have h1 := step_budget sz s u e hst
      have h2 := ih u t h
      rw [List.countP_cons]
      split_ifs at h1 ⊢ <;> omega

theorem ssp_reply_true (s : State) (bd_addr : RawAddress) (addr_type accept : Nat)
    (h : s.waiting_for_pairing_prompt = true) :
    BTIF_DM_ssp_reply s bd_addr addr_type BT_SSP_VARIANT_PASSKEY_CONFIRMATION accept =
        { s with
          engine := s.engine ++
            [OnPairingPromptAccepted { address := { raw := bd_addr }, address_type := 0 } accept,
             OnPairingPromptAccepted { address := { raw := bd_addr }, address_type := 1 } accept],
          waiting_for_pairing_prompt := false } ∧
      (BTIF_DM_ssp_reply s bd_addr addr_type BT_SSP_VARIANT_PASSKEY_CONFIRMATION
          accept).waiting_for_pairing_prompt = false := by
  simp [BTIF_DM_ssp_reply, h, ToAddressWithType]

theorem ssp_reply_false (s : State) (bd_addr : RawAddress) (addr_type accept : Nat)
    (h : s.waiting_for_pairing_prompt = false) :
    BTIF_DM_ssp_reply s bd_addr addr_type BT_SSP_VARIANT_PASSKEY_CONFIRMATION accept =
        { s with
          engine := s.engine ++
            [OnConfirmYesNo { address := { raw := bd_addr }, address_type := 0 } accept,
             OnConfirmYesNo { address := { raw := bd_addr }, address_type := 1 } accept] } ∧
      (BTIF_DM_ssp_reply s bd_addr addr_type BT_SSP_VARIANT_PASSKEY_CONFIRMATION
          accept).waiting_for_pairing_prompt = false := by
  simp [BTIF_DM_ssp_reply, h, ToAddressWithType]

/-- C7: in a sequence of events from the initial state whose array reads stay
in bounds, the flag is false after a PASSKEY_CONFIRMATION reply, wherever it
occurs; when a second PASSKEY_CONFIRMATION reply follows with no
`DisplayPairingPrompt` in between, that second reply calls `OnConfirmYesNo`
for both address types and nothing else; and the `OnPairingPromptAccepted`
calls made in all number at most two (one reply) per `DisplayPairingPrompt`. -/
theorem confirmation_consumes_prompt (sz : Nat) (pre mid : List Event)
    (bd_addr1 : RawAddress) (addr_type1 accept1 : Nat)
    (bd_addr2 : RawAddress) (addr_type2 accept2 : Nat)
    (hb : ∀ e ∈ pre ++ mid, e.in_bounds = true)
    (hmid : ∀ e ∈ mid, e.isDisplayPairingPrompt = false) :
    ∃ s t,
      run sz initial
          (pre ++ [Event.ssp_reply bd_addr1 addr_type1 BT_SSP_VARIANT_PASSKEY_CONFIRMATION
            accept1]) = some s ∧
        s.waiting_for_pairing_prompt = false ∧
        run sz s mid = some t ∧
        t.waiting_for_pairing_prompt = false ∧
        run sz initial
          (pre ++ [Event.ssp_reply bd_addr1 addr_type1 BT_SSP_VARIANT_PASSKEY_CONFIRMATION
            accept1] ++ mid ++
            [Event.ssp_reply bd_addr2 addr_type2 BT_SSP_VARIANT_PASSKEY_CONFIRMATION accept2]) =
          some { t with
            engine := t.engine ++
              [OnConfirmYesNo { address := { raw := bd_addr2 }, address_type := 0 } accept2,
               OnConfirmYesNo { address := { raw := bd_addr2 }, address_type := 1 } accept2] } ∧
        (t.engine ++
            [OnConfirmYesNo { address := { raw := bd_addr2 }, address_type := 0 } accept2,
             OnConfirmYesNo { address := { raw := bd_addr2 }, address_type := 1 }
               accept2]).countP isOnPairingPromptAccepted ≤
          2 * pre.countP Event.isDisplayPairingPrompt := by
  obtain ⟨p, hp⟩ := run_in_bounds sz pre initial
    (fun e he => hb e (List.mem_append_left _ he))
  have hs : run sz initial
      (pre ++ [Event.ssp_reply bd_addr1 addr_type1 BT_SSP_VARIANT_PASSKEY_CONFIRMATION
        accept1]) =
      some (BTIF_DM_ssp_reply p bd_addr1 addr_type1 BT_SSP_VARIANT_PASSKEY_CONFIRMATION
        accept1) := by
    rw [run_append, hp]; rfl
  have hsf : (BTIF_DM_ssp_reply p bd_addr1 addr_type1 BT_SSP_VARIANT_PASSKEY_CONFIRMATION
      accept1).waiting_for_pairing_prompt = false := by
    cases hw : p.waiting_for_pairing_prompt with
    | true => exact (ssp_reply_true p bd_addr1 addr_type1 accept1 hw).2
    | false => exact (ssp_reply_false p bd_addr1 addr_type1 accept1 hw).2
  obtain ⟨t, ht⟩ := run_in_bounds sz mid
    (BTIF_DM_ssp_reply p bd_addr1 addr_type1 BT_SSP_VARIANT_PASSKEY_CONFIRMATION accept1)
    (fun e he => hb e (List.mem_append_right _ he))
  have htf := run_flag_false sz mid _ t ht hmid hsf
  have hall : run sz initial
      (pre ++ [Event.ssp_reply bd_addr1 addr_type1 BT_SSP_VARIANT_PASSKEY_CONFIRMATION
        accept1] ++ mid ++
        [Event.ssp_reply bd_addr2 addr_type2 BT_SSP_VARIANT_PASSKEY_CONFIRMATION accept2]) =
      some { t with
        engine := t.engine ++
          [OnConfirmYesNo { address := { raw := bd_addr2 }, address_type := 0 } accept2,
           OnConfirmYesNo { address := { raw := bd_addr2 }, address_type := 1 } accept2] } := by
    rw [run_append, run_append, hs, Option.some_bind, ht, Option.some_bind]
    simp only [run, step]
    rw [(ssp_reply_false t bd_addr2 addr_type2 accept2 htf).1]
  refine ⟨_, t, hs, hsf, ht, htf, hall, ?_⟩
  have hbud := run_budget sz _ initial _ hall
  simp only [acceptance_budget, initial, List.countP_append, List.countP_cons,
    List.countP_nil, Event.isDisplayPairingPrompt, htf] at hbud
  have hm0 : mid.countP Event.isDisplayPairingPrompt = 0 := by
    rw [List.countP_eq_zero]
    intro e he
    simp [hmid e he]
  rw [hm0] at hbud
  simp only [List.countP_append, List.countP_cons, List.countP_nil]
  simpa using hbud

/-- C7, at a concrete input: prompt displayed, confirmation, confirmation. The
first reply is routed to `OnPairingPromptAccepted`, the second to
`OnConfirmYesNo`. -/
theorem confirmation_consumes_prompt_witness :
    (run 249 initial
        [Event.DisplayPairingPrompt
           { address := { raw := { address := [1, 2, 3, 4, 5, 6] } }, address_type := 0 }
           [80, 104, 111, 110, 101],
         Event.ssp_reply { address := [1, 2, 3, 4, 5, 6] } 0
           BT_SSP_VARIANT_PASSKEY_CONFIRMATION 1,
         Event.ssp_reply { address := [1, 2, 3, 4, 5, 6] } 0
           BT_SSP_VARIANT_PASSKEY_CONFIRMATION 1]).map State.engine =
        some
          [OnPairingPromptAccepted
             { address := { raw := { address := [1, 2, 3, 4, 5, 6] } }, address_type := 0 } 1,
           OnPairingPromptAccepted
             { address := { raw := { address := [1, 2, 3, 4, 5, 6] } }, address_type := 1 } 1,
           OnConfirmYesNo
             { address := { raw := { address := [1, 2, 3, 4, 5, 6] } }, address_type := 0 } 1,
           OnConfirmYesNo
             { address := { raw := { address := [1, 2, 3, 4, 5, 6] } }, address_type := 1 } 1] ∧
      ∃ s t,
        run 249 initial
            [Event.DisplayPairingPrompt
               { address := { raw := { address := [1, 2, 3, 4, 5, 6] } }, address_type := 0 }
               [80, 104, 111, 110, 101],
             Event.ssp_reply { address := [1, 2, 3, 4, 5, 6] } 0
               BT_SSP_VARIANT_PASSKEY_CONFIRMATION 1] = some s ∧
          s.waiting_for_pairing_prompt = false ∧
          run 249 s [] = some t ∧
          t.waiting_for_pairing_prompt = false ∧
          run 249 initial
            [Event.DisplayPairingPrompt
               { address := { raw := { address := [1, 2, 3, 4, 5, 6] } }, address_type := 0 }
               [80, 104, 111, 110, 101],
             Event.ssp_reply { address := [1, 2, 3, 4, 5, 6] } 0
               BT_SSP_VARIANT_PASSKEY_CONFIRMATION 1,
             Event.ssp_reply { address := [1, 2, 3, 4, 5, 6] } 0
               BT_SSP_VARIANT_PASSKEY_CONFIRMATION 1] =
            some { t with
              engine := t.engine ++
                [OnConfirmYesNo
                   { address := { raw := { address := [1, 2, 3, 4, 5, 6] } }, address_type := 0 }
                   1,
                 OnConfirmYesNo
                   { address := { raw := { address := [1, 2, 3, 4, 5, 6] } }, address_type := 1 }
                   1] } ∧
          (t.engine ++
              [OnConfirmYesNo
                 { address := { raw := { address := [1, 2, 3, 4, 5, 6] } }, address_type := 0 } 1,
               OnConfirmYesNo
                 { address := { raw := { address := [1, 2, 3, 4, 5, 6] } }, address_type := 1 }
                 1]).countP isOnPairingPromptAccepted ≤ 2 :=
  ⟨rfl,
   confirmation_consumes_prompt 249
     [Event.DisplayPairingPrompt
        { address := { raw := { address := [1, 2, 3, 4, 5, 6] } }, address_type := 0 }
        [80, 104, 111, 110, 101]]
     [] { address := [1, 2, 3, 4, 5, 6] } 0 1 { address := [1, 2, 3, 4, 5, 6] } 0 1
     (by decide) (by decide)⟩
end shim
end bluetooth
